import Mathlib

/-
Shallow embedding of `src/contracts/PulseCheck_FHE.sol` (contract
`EncryptedSurveySystem`).

Modelling conventions:
* Solidity `uint256`/`uint32` identifiers, timestamps and ciphertext
  handles are `Nat`; a `bytes` argument is a `List Nat`.
* Solidity mappings are total functions with the zero value as default,
  exactly as EVM storage behaves (`surveys` defaults to the all-zero
  struct, `responses` to the empty array, `responseCounts` to `0`).
* `require(cond, msg)` becomes `if cond then … else .error e`, where `e`
  is the `Err` constructor named after the revert message; a reverted
  call leaves the pre-state in force (see `applyOp`).
* The external FHE collaborators (`FHE.fromExternal`, `FHE.isInitialized`,
  `FHE.checkSignatures`, `abi.decode(…, (uint32))`) are opaque to the
  contract and are modelled by the oracle record `FheEnv`.
  `FHE.allowThis` / `FHE.makePubliclyDecryptable` only touch the FHE ACL,
  which is outside the contract's storage, so they do not appear in the
  state.  `FHE.toBytes32` is an opaque injection from handles to words;
  we let `checkSignatures` consume handles directly.
* `block.timestamp` is passed explicitly as `now` to the operations that
  read it (`submitEncryptedResponse`, `closeSurvey`).

Error-name correspondence with the revert strings of the source and the
spec's taxonomy (§7):
  SurveyAlreadyExists   = "Survey already exists"      = DuplicateSurvey
  InvalidTimeRange      = "Invalid time range"         = InvalidTimeRange
  SurveyNotActive       = "Survey is not active"       = SurveyInactive
  SurveyNotInProgress   = "Survey not in progress"     = OutOfWindow
  InvalidEncryptedInput = "Invalid encrypted input"    = InvalidEncryptedInput
  InvalidResponseIndex  = "Invalid response index"     = IndexOutOfRange
  ResponseAlreadyVerified = "Response already verified" = AlreadyVerified
  InvalidDecryptionProof  = revert inside FHE.checkSignatures = InvalidDecryptionProof
  MalformedClearValue     = revert inside abi.decode   = MalformedClearValue
  ResponseNotVerified   = "Response not verified"      = NotYetVerified
  SurveyAlreadyClosed   = "Survey already closed"      = SurveyAlreadyClosed
  SurveyStillInProgress = "Survey still in progress"   = SurveyStillInProgress
-/

/-- Mirror of struct `SurveyMetadata` (lines 16-21 of the contract). -/
structure SurveyMetadata where
  surveyName : String
  startTime : Nat
  endTime : Nat
  isActive : Bool
deriving DecidableEq, Repr

/-- Mirror of struct `EncryptedResponse` (lines 7-14).  `encryptedScore`
is the opaque `euint32` handle. -/
structure EncryptedResponse where
  encryptedScore : Nat
  departmentId : Nat
  questionId : Nat
  timestamp : Nat
  isVerified : Bool
  decryptedScore : Nat
deriving DecidableEq, Repr

/-- The all-zero `EncryptedResponse`, matching the EVM default struct. -/
instance : Inhabited EncryptedResponse :=
  ⟨⟨0, 0, 0, 0, false, 0⟩⟩

/-- The contract's storage (lines 23-25): `surveys`, `responses`,
`responseCounts`, each a mapping with EVM zero defaults. -/
structure ContractState where
  surveys : Nat → SurveyMetadata
  responses : Nat → Nat → List EncryptedResponse
  responseCounts : Nat → Nat

/-- Freshly deployed contract: every mapping holds its zero value. -/
def initialState : ContractState :=
  { surveys := fun _ => ⟨"", 0, 0, false⟩
  , responses := fun _ _ => []
  , responseCounts := fun _ => 0 }

/-- Oracle for the external FHE collaborators.  `fromExternal` converts an
external ciphertext plus input proof to a handle; `isInit` models
`FHE.isInitialized`; `checkSignatures` models the (reverting)
`FHE.checkSignatures` as a boolean gate; `decodeUint32` models
`abi.decode(bytes, (uint32))`, failing on malformed input and always
producing a value that fits in 32 bits. -/
structure FheEnv where
  fromExternal : Nat → Nat → Nat
  isInit : Nat → Bool
  checkSignatures : List Nat → List Nat → List Nat → Bool
  decodeUint32 : List Nat → Option Nat
  decode_lt : ∀ b v, decodeUint32 b = some v → v < 2 ^ 32

/-- Typed revert reasons; see the correspondence table above. -/
inductive Err where
  | SurveyAlreadyExists
  | InvalidTimeRange
  | SurveyNotActive
  | SurveyNotInProgress
  | InvalidEncryptedInput
  | InvalidResponseIndex
  | ResponseAlreadyVerified
  | InvalidDecryptionProof
  | MalformedClearValue
  | ResponseNotVerified
  | SurveyAlreadyClosed
  | SurveyStillInProgress
deriving DecidableEq, Repr

/-- `createSurvey` (lines 33-50).  `bytes(s).length == 0` holds exactly
when the string is empty. -/
def createSurvey (s : ContractState) (surveyId : Nat) (surveyName : String)
    (startTime endTime : Nat) : Except Err ContractState :=
  if (s.surveys surveyId).surveyName = "" then
    if startTime < endTime then
      Except.ok { s with surveys := (fun i =>
        if i = surveyId then ⟨surveyName, startTime, endTime, true⟩
        else s.surveys i) }
    else Except.error Err.InvalidTimeRange
  else Except.error Err.SurveyAlreadyExists

/-- `submitEncryptedResponse` (lines 52-78).  The Solidity function has an
empty `returns` clause, so its (non-state) result is `Unit`. -/
def submitEncryptedResponse (env : FheEnv) (now : Nat) (s : ContractState)
    (surveyId departmentId questionId encryptedScore inputProof : Nat) :
    Except Err (Unit × ContractState) :=
  if (s.surveys surveyId).isActive then
    if (s.surveys surveyId).startTime ≤ now ∧ now ≤ (s.surveys surveyId).endTime then
      if env.isInit (env.fromExternal encryptedScore inputProof) then
        Except.ok ((),
          { s with
            responses := (fun sid did =>
              if sid = surveyId ∧ did = departmentId then
                s.responses sid did ++
                  [⟨env.fromExternal encryptedScore inputProof,
                    departmentId, questionId, now, false, 0⟩]
              else s.responses sid did)
          , responseCounts := (fun sid =>
              if sid = surveyId then s.responseCounts sid + 1
              else s.responseCounts sid) })
      else Except.error Err.InvalidEncryptedInput
    else Except.error Err.SurveyNotInProgress
  else Except.error Err.SurveyNotActive

/-- `verifyResponse` (lines 80-102).  The checks run in source order:
index bound, `isVerified`, `FHE.checkSignatures`, `abi.decode`. -/
def verifyResponse (env : FheEnv) (s : ContractState)
    (surveyId departmentId questionId responseIndex : Nat)
    (abiEncodedClearValue decryptionProof : List Nat) :
    Except Err ContractState :=
  if responseIndex < (s.responses surveyId departmentId).length then
    if ((s.responses surveyId departmentId).getD responseIndex default).isVerified then
      Except.error Err.ResponseAlreadyVerified
    else if env.checkSignatures
        [((s.responses surveyId departmentId).getD responseIndex default).encryptedScore]
        abiEncodedClearValue decryptionProof then
      match env.decodeUint32 abiEncodedClearValue with
      | some decodedValue =>
        Except.ok { s with responses := (fun sid did =>
          if sid = surveyId ∧ did = departmentId then
            (s.responses sid did).set responseIndex
              { (s.responses surveyId departmentId).getD responseIndex default with
                decryptedScore := decodedValue, isVerified := true }
          else s.responses sid did) }
      | none => Except.error Err.MalformedClearValue
    else Except.error Err.InvalidDecryptionProof
  else Except.error Err.InvalidResponseIndex

/-- `getSurveyMetadata` (lines 104-112). -/
def getSurveyMetadata (s : ContractState) (surveyId : Nat) :
    String × Nat × Nat × Bool :=
  ((s.surveys surveyId).surveyName, (s.surveys surveyId).startTime,
   (s.surveys surveyId).endTime, (s.surveys surveyId).isActive)

/-- `getResponseCount` (lines 114-116). -/
def getResponseCount (s : ContractState) (surveyId : Nat) : Nat :=
  s.responseCounts surveyId

/-- `getEncryptedResponse` (lines 118-126); `questionId` is accepted and
ignored, as in the source. -/
def getEncryptedResponse (s : ContractState)
    (surveyId departmentId questionId responseIndex : Nat) : Except Err Nat :=
  if responseIndex < (s.responses surveyId departmentId).length then
    Except.ok ((s.responses surveyId departmentId).getD responseIndex default).encryptedScore
  else Except.error Err.InvalidResponseIndex

/-- `getDecryptedResponse` (lines 128-137): the spec's `readVerified`. -/
def getDecryptedResponse (s : ContractState)
    (surveyId departmentId questionId responseIndex : Nat) : Except Err Nat :=
  if responseIndex < (s.responses surveyId departmentId).length then
    if ((s.responses surveyId departmentId).getD responseIndex default).isVerified then
      Except.ok ((s.responses surveyId departmentId).getD responseIndex default).decryptedScore
    else Except.error Err.ResponseNotVerified
  else Except.error Err.InvalidResponseIndex

/-- `getResponseDetails` (lines 139-161): returns
`(departmentId, questionId, timestamp, isVerified, decryptedScore)`. -/
def getResponseDetails (s : ContractState)
    (surveyId departmentId questionId responseIndex : Nat) :
    Except Err (Nat × Nat × Nat × Bool × Nat) :=
  if responseIndex < (s.responses surveyId departmentId).length then
    Except.ok (((s.responses surveyId departmentId).getD responseIndex default).departmentId,
      ((s.responses surveyId departmentId).getD responseIndex default).questionId,
      ((s.responses surveyId departmentId).getD responseIndex default).timestamp,
      ((s.responses surveyId departmentId).getD responseIndex default).isVerified,
      ((s.responses surveyId departmentId).getD responseIndex default).decryptedScore)
  else Except.error Err.InvalidResponseIndex

/-- `closeSurvey` (lines 163-167). -/
def closeSurvey (now : Nat) (s : ContractState) (surveyId : Nat) :
    Except Err ContractState :=
  if (s.surveys surveyId).isActive then
    if (s.surveys surveyId).endTime < now then
      Except.ok { s with surveys := (fun i =>
        if i = surveyId then { s.surveys i with isActive := false }
        else s.surveys i) }
    else Except.error Err.SurveyStillInProgress
  else Except.error Err.SurveyAlreadyClosed

/-- One external transaction against the contract: the four mutating
entry points, each with its arguments (and `block.timestamp` where the
source reads it). -/
inductive Op where
  | create (surveyId : Nat) (surveyName : String) (startTime endTime : Nat)
  | submit (now surveyId departmentId questionId encryptedScore inputProof : Nat)
  | verify (surveyId departmentId questionId responseIndex : Nat)
      (abiEncodedClearValue decryptionProof : List Nat)
  | close (now surveyId : Nat)
deriving DecidableEq, Repr

/-- Outcome of one transaction, before revert handling. -/
def stepRes (env : FheEnv) (s : ContractState) : Op → Except Err ContractState
  | Op.create surveyId surveyName startTime endTime =>
      createSurvey s surveyId surveyName startTime endTime
  | Op.submit now surveyId departmentId questionId encryptedScore inputProof =>
      (submitEncryptedResponse env now s surveyId departmentId questionId
        encryptedScore inputProof).map Prod.snd
  | Op.verify surveyId departmentId questionId responseIndex cv pf =>
      verifyResponse env s surveyId departmentId questionId responseIndex cv pf
  | Op.close now surveyId => closeSurvey now s surveyId

/-- EVM revert semantics: a failed transaction leaves storage untouched. -/
def applyOp (env : FheEnv) (s : ContractState) (op : Op) : ContractState :=
  match stepRes env s op with
  | Except.ok s' => s'
  | Except.error _ => s

/-- Run a sequence of transactions. -/
def execTrace (env : FheEnv) (s : ContractState) : List Op → ContractState
  | [] => s
  | op :: ops => execTrace env (applyOp env s op) ops

/-- A concrete permissive oracle used by the counterexamples and
witnesses: every ciphertext is well formed, every decryption proof
passes, and a clear-value byte string decodes to its head. -/
def env0 : FheEnv :=
  { fromExternal := fun c _ => c
  , isInit := fun _ => true
  , checkSignatures := fun _ _ _ => true
  , decodeUint32 := fun b => (b.head?).map (fun v => v % 2 ^ 32)
  , decode_lt := by
      intro b v h
      cases hb : b.head? with
      | none => simp [hb] at h
      | some w =>
          simp [hb] at h
          omega }

/-- The state a successful call produced, or the unchanged pre-state on a
revert; used to name concrete post-states below. -/
def okState (s : ContractState) (e : Except Err ContractState) : ContractState :=
  e.toOption.getD s

/-- `okState` for `submitEncryptedResponse`'s `Unit × state` result. -/
def okState2 (s : ContractState) (e : Except Err (Unit × ContractState)) : ContractState :=
  (e.toOption.map Prod.snd).getD s

/-- Survey 1 named "s" with window [0, 10], freshly created. -/
def sCreated : ContractState :=
  okState initialState (createSurvey initialState 1 "s" 0 10)

/-- `sCreated` after one submission to department 1 at time 5. -/
def sSubmitted : ContractState :=
  okState2 sCreated (submitEncryptedResponse env0 5 sCreated 1 1 1 7 0)

/-- `sSubmitted` after a second submission to the same department. -/
def sSubmitted2 : ContractState :=
  okState2 sSubmitted (submitEncryptedResponse env0 5 sSubmitted 1 1 1 7 0)

/-- `sSubmitted` after response (1, 1, index 0) was verified with clear
value 8. -/
def sVerified : ContractState :=
  okState sSubmitted (verifyResponse env0 sSubmitted 1 1 1 0 [8] [])

/-- Survey 1 created with the empty name "". -/
def sEmptyName : ContractState :=
  okState initialState (createSurvey initialState 1 "" 0 10)

/-- `sEmptyName` after `closeSurvey` at time 11. -/
def sEmptyClosed : ContractState :=
  okState sEmptyName (closeSurvey 11 sEmptyName 1)

/-- `sEmptyClosed` after re-creating survey 1 (the empty stored name lets
the duplicate check pass again). -/
def sEmptyRecreated : ContractState :=
  okState sEmptyClosed (createSurvey sEmptyClosed 1 "" 0 10)

/-- `sCreated` closed at time 11. -/
def sClosed : ContractState :=
  okState sCreated (closeSurvey 11 sCreated 1)

/-- Transaction trace: create survey 1, then submit once to department 1. -/
def c6ops : List Op := [Op.create 1 "s" 0 10, Op.submit 5 1 1 1 7 0]

/-- State reached by `c6ops` from a fresh deployment. -/
def c6state : ContractState := execTrace env0 initialState c6ops

/-- Transaction trace that never creates survey 1. -/
def c10ops : List Op := [Op.close 99 2]

/-- State reached by `c10ops` from a fresh deployment. -/
def c10state : ContractState := execTrace env0 initialState c10ops

/-! ### Generic list-indexing helpers -/

theorem getD_set_ne {α : Type} [Inhabited α] (l : List α) {j i : Nat} (a : α)
    (hne : j ≠ i) : (l.set j a).getD i default = l.getD i default := by
  by_cases hi : i < l.length
  · rw [List.getD_eq_getElem _ _ (by simpa using hi), List.getD_eq_getElem _ _ hi]
    exact List.getElem_set_ne hne _
  · rw [List.getD_eq_default _ _ (by simpa using Nat.le_of_not_lt hi),
      List.getD_eq_default _ _ (Nat.le_of_not_lt hi)]

theorem getD_set_self {α : Type} [Inhabited α] (l : List α) {i : Nat} (a : α)
    (hi : i < l.length) : (l.set i a).getD i default = a := by
  rw [List.getD_eq_getElem _ _ (by simpa using hi)]
  exact List.getElem_set_self _

theorem getD_append_left {α : Type} [Inhabited α] (l l' : List α) {i : Nat}
    (hi : i < l.length) : (l ++ l').getD i default = l.getD i default :=
  List.getD_append l l' default i hi

theorem getD_mem {α : Type} [Inhabited α] (l : List α) {i : Nat}
    (hi : i < l.length) : l.getD i default ∈ l := by
  rw [List.getD_eq_get _ _ hi]
  exact List.get_mem l i hi

/-! ### Inversion lemmas: what a successful call did -/

/-- A successful `createSurvey` passed both checks and wrote exactly the
new metadata record. -/
theorem createSurvey_ok {s : ContractState} {surveyId : Nat} {surveyName : String}
    {startTime endTime : Nat} {s' : ContractState}
    (h : createSurvey s surveyId surveyName startTime endTime = Except.ok s') :
    (s.surveys surveyId).surveyName = "" ∧ startTime < endTime ∧
    s'.surveys = (fun i => if i = surveyId then ⟨surveyName, startTime, endTime, true⟩
      else s.surveys i) ∧
    s'.responses = s.responses ∧ s'.responseCounts = s.responseCounts := by
  unfold createSurvey at h
  split_ifs at h with h1 h2
  · injection h with h3
    subst h3
    exact ⟨h1, h2, rfl, rfl, rfl⟩

/-- A successful `submitEncryptedResponse` passed the three gates and
appended exactly one fresh unverified response. -/
theorem submit_ok {env : FheEnv} {now : Nat} {s : ContractState}
    {surveyId departmentId questionId encryptedScore inputProof : Nat}
    {u : Unit} {s' : ContractState}
    (h : submitEncryptedResponse env now s surveyId departmentId questionId
      encryptedScore inputProof = Except.ok (u, s')) :
    (s.surveys surveyId).isActive = true ∧
    (s.surveys surveyId).startTime ≤ now ∧ now ≤ (s.surveys surveyId).endTime ∧
    env.isInit (env.fromExternal encryptedScore inputProof) = true ∧
    s'.surveys = s.surveys ∧
    s'.responses = (fun sid did =>
      if sid = surveyId ∧ did = departmentId then
        s.responses sid did ++
          [⟨env.fromExternal encryptedScore inputProof,
            departmentId, questionId, now, false, 0⟩]
      else s.responses sid did) ∧
    s'.responseCounts = (fun sid =>
      if sid = surveyId then s.responseCounts sid + 1 else s.responseCounts sid) := by
  unfold submitEncryptedResponse at h
  split_ifs at h with h1 h2 h3
  · injection h with h4
    injection h4 with h5 h6
    subst h6
    exact ⟨h1, h2.1, h2.2, h3, rfl, rfl, rfl⟩

/-- A successful `verifyResponse` passed all four checks and overwrote
exactly the targeted entry with `isVerified = true` and the decoded
score. -/
theorem verify_ok {env : FheEnv} {s : ContractState}
    {surveyId departmentId questionId responseIndex : Nat}
    {cv pf : List Nat} {s' : ContractState}
    (h : verifyResponse env s surveyId departmentId questionId responseIndex cv pf
      = Except.ok s') :
    responseIndex < (s.responses surveyId departmentId).length ∧
    ((s.responses surveyId departmentId).getD responseIndex default).isVerified = false ∧
    env.checkSignatures
      [((s.responses surveyId departmentId).getD responseIndex default).encryptedScore]
      cv pf = true ∧
    ∃ v, env.decodeUint32 cv = some v ∧
      s'.surveys = s.surveys ∧ s'.responseCounts = s.responseCounts ∧
      s'.responses = (fun sid did =>
        if sid = surveyId ∧ did = departmentId then
          (s.responses sid did).set responseIndex
            { (s.responses surveyId departmentId).getD responseIndex default with
              decryptedScore := v, isVerified := true }
        else s.responses sid did) := by
  unfold verifyResponse at h
  split_ifs at h with h1 h2 h3
  · cases hd : env.decodeUint32 cv with
    | none =>
        rw [hd] at h
        exact Except.noConfusion h
    | some v =>
        rw [hd] at h
        injection h with h4
        subst h4
        exact ⟨h1, by simpa using h2, h3, v, rfl, rfl, rfl, rfl⟩

/-- A successful `closeSurvey` passed both checks and only cleared the
`isActive` flag of its survey. -/
theorem close_ok {now : Nat} {s : ContractState} {surveyId : Nat} {s' : ContractState}
    (h : closeSurvey now s surveyId = Except.ok s') :
    (s.surveys surveyId).isActive = true ∧ (s.surveys surveyId).endTime < now ∧
    s'.surveys = (fun i => if i = surveyId then { s.surveys i with isActive := false }
      else s.surveys i) ∧
    s'.responses = s.responses ∧ s'.responseCounts = s.responseCounts := by
  unfold closeSurvey at h
  split_ifs at h with h1 h2
  · injection h with h3
    subst h3
    exact ⟨h1, h2, rfl, rfl, rfl⟩

/-! ### Revert semantics -/

theorem applyOp_of_error {env : FheEnv} {s : ContractState} {op : Op} {e : Err}
    (h : stepRes env s op = Except.error e) : applyOp env s op = s := by
  unfold applyOp
  rw [h]

theorem applyOp_of_ok {env : FheEnv} {s : ContractState} {op : Op} {s' : ContractState}
    (h : stepRes env s op = Except.ok s') : applyOp env s op = s' := by
  unfold applyOp
  rw [h]

/-- Exhaustive description of one transaction: either it reverted and the
state is untouched, or it is one of the four calls and succeeded. -/
theorem applyOp_cases (env : FheEnv) (s : ContractState) (op : Op) :
    applyOp env s op = s ∨
    (∃ id n a b s', op = Op.create id n a b ∧
      createSurvey s id n a b = Except.ok s' ∧ applyOp env s op = s') ∨
    (∃ now id did qid ct pf s', op = Op.submit now id did qid ct pf ∧
      submitEncryptedResponse env now s id did qid ct pf = Except.ok ((), s') ∧
      applyOp env s op = s') ∨
    (∃ id did qid i cv pf s', op = Op.verify id did qid i cv pf ∧
      verifyResponse env s id did qid i cv pf = Except.ok s' ∧ applyOp env s op = s') ∨
    (∃ now id s', op = Op.close now id ∧
      closeSurvey now s id = Except.ok s' ∧ applyOp env s op = s') := by
  cases op with
  | create id n a b =>
      cases hres : createSurvey s id n a b with
      | error e => exact Or.inl (applyOp_of_error (by simpa [stepRes] using hres))
      | ok s' =>
          exact Or.inr (Or.inl ⟨id, n, a, b, s', rfl, hres,
            applyOp_of_ok (by simpa [stepRes] using hres)⟩)
  | submit now id did qid ct pf =>
      cases hres : submitEncryptedResponse env now s id did qid ct pf with
      | error e =>
          refine Or.inl (applyOp_of_error (e := e) ?_)
          simp [stepRes, hres, Except.map]
      | ok p =>
          obtain ⟨u, s'⟩ := p
          refine Or.inr (Or.inr (Or.inl ⟨now, id, did, qid, ct, pf, s', rfl, ?_, ?_⟩))
          · exact hres
          · exact applyOp_of_ok (by simp [stepRes, hres, Except.map])
  | verify id did qid i cv pf =>
      cases hres : verifyResponse env s id did qid i cv pf with
      | error e => exact Or.inl (applyOp_of_error (by simpa [stepRes] using hres))
      | ok s' =>
          exact Or.inr (Or.inr (Or.inr (Or.inl ⟨id, did, qid, i, cv, pf, s', rfl, hres,
            applyOp_of_ok (by simpa [stepRes] using hres)⟩)))
  | close now id =>
      cases hres : closeSurvey now s id with
      | error e => exact Or.inl (applyOp_of_error (by simpa [stepRes] using hres))
      | ok s' =>
          exact Or.inr (Or.inr (Or.inr (Or.inr ⟨now, id, s', rfl, hres,
            applyOp_of_ok (by simpa [stepRes] using hres)⟩)))

/-! ### Trace preservation -/

theorem execTrace_cons (env : FheEnv) (s : ContractState) (op : Op) (ops : List Op) :
    execTrace env s (op :: ops) = execTrace env (applyOp env s op) ops := rfl

/-- Induction principle over traces: an invariant preserved by every
transaction satisfying `Q` holds at the end of any trace of such
transactions. -/
theorem execTrace_pres (env : FheEnv) (P : ContractState → Prop) (Q : Op → Prop)
    (hstep : ∀ s op, Q op → P s → P (applyOp env s op)) :
    ∀ (ops : List Op) (s : ContractState), (∀ op ∈ ops, Q op) → P s →
      P (execTrace env s ops)
  | [], _, _, hs => hs
  | op :: ops, s, hQ, hs =>
      execTrace_pres env P Q hstep ops (applyOp env s op)
        (fun o ho => hQ o (List.mem_cons_of_mem _ ho))
        (hstep s op (hQ op (List.mem_cons_self _ _)) hs)

/-! ### Single-transaction invariant steps -/

/-- A verified entry is frozen: no transaction changes it, and its index
stays in range. -/
theorem verified_frozen_step (env : FheEnv) (s : ContractState) (op : Op)
    (sid did i : Nat)
    (hi : i < (s.responses sid did).length)
    (hv : ((s.responses sid did).getD i default).isVerified = true) :
    ((applyOp env s op).responses sid did).getD i default
      = (s.responses sid did).getD i default ∧
    i < ((applyOp env s op).responses sid did).length := by
  rcases applyOp_cases env s op with heq | ⟨id, n, a, b, s', _, hok, heq⟩ |
    ⟨now, id, did', qid, ct, pf, s', _, hok, heq⟩ |
    ⟨id, did', qid, j, cv, pf, s', _, hok, heq⟩ | ⟨now, id, s', _, hok, heq⟩
  · rw [heq]
    exact ⟨rfl, hi⟩
  · obtain ⟨_, _, _, hre, _⟩ := createSurvey_ok hok
    rw [heq]
    simp only [hre]
    exact ⟨trivial, hi⟩
  · obtain ⟨_, _, _, _, _, hre, _⟩ := submit_ok hok
    rw [heq]
    simp only [hre]
    by_cases hkey : sid = id ∧ did = did'
    · rw [if_pos hkey]
      refine ⟨getD_append_left _ _ hi, ?_⟩
      simp only [List.length_append, List.length_singleton]
      exact Nat.lt_succ_of_lt hi
    · rw [if_neg hkey]
      exact ⟨rfl, hi⟩
  · obtain ⟨hlen, hunv, hsig, v, hdec, hsv, hrc, hre⟩ := verify_ok hok
    rw [heq]
    simp only [hre]
    by_cases hkey : sid = id ∧ did = did'
    · obtain ⟨rfl, rfl⟩ := hkey
      rw [if_pos ⟨rfl, rfl⟩]
      by_cases hij : j = i
      · subst hij
        rw [hv] at hunv
        exact Bool.noConfusion hunv
      · refine ⟨getD_set_ne _ _ hij, ?_⟩
        simpa using hi
    · rw [if_neg hkey]
      exact ⟨rfl, hi⟩
  · obtain ⟨_, _, _, hre, _⟩ := close_ok hok
    rw [heq]
    simp only [hre]
    exact ⟨trivial, hi⟩

/-- Trace version of `verified_frozen_step`. -/
theorem verified_frozen_trace (env : FheEnv) (sid did i : Nat)
    (ops : List Op) (s : ContractState)
    (hi : i < (s.responses sid did).length)
    (hv : ((s.responses sid did).getD i default).isVerified = true) :
    ((execTrace env s ops).responses sid did).getD i default
      = (s.responses sid did).getD i default ∧
    i < ((execTrace env s ops).responses sid did).length := by
  have hmain := execTrace_pres env
    (fun t => i < (t.responses sid did).length ∧
      (t.responses sid did).getD i default = (s.responses sid did).getD i default)
    (fun _ => True)
    (fun t op _ ht => by
      have hstep := verified_frozen_step env t op sid did i ht.1 (by rw [ht.2]; exact hv)
      exact ⟨hstep.2, by rw [hstep.1, ht.2]⟩)
    ops s (fun _ _ => trivial) ⟨hi, rfl⟩
  exact ⟨hmain.2, hmain.1⟩

/-- A non-empty stored survey name never changes. -/
theorem surveyName_step (env : FheEnv) (s : ContractState) (op : Op) (sid : Nat)
    (h : (s.surveys sid).surveyName ≠ "") :
    ((applyOp env s op).surveys sid).surveyName = (s.surveys sid).surveyName := by
  rcases applyOp_cases env s op with heq | ⟨id, n, a, b, s', _, hok, heq⟩ |
    ⟨now, id, did', qid, ct, pf, s', _, hok, heq⟩ |
    ⟨id, did', qid, j, cv, pf, s', _, hok, heq⟩ | ⟨now, id, s', _, hok, heq⟩
  · rw [heq]
  · obtain ⟨hname, _, hsv, _, _⟩ := createSurvey_ok hok
    rw [heq]
    simp only [hsv]
    by_cases hid : sid = id
    · subst hid
      exact absurd hname h
    · rw [if_neg hid]
  · obtain ⟨_, _, _, _, hsv, _, _⟩ := submit_ok hok
    rw [heq]
    simp only [hsv]
  · obtain ⟨_, _, _, v, _, hsv, _, _⟩ := verify_ok hok
    rw [heq]
    simp only [hsv]
  · obtain ⟨_, _, hsv, _, _⟩ := close_ok hok
    rw [heq]
    simp only [hsv]
    by_cases hid : sid = id
    · rw [if_pos hid]
    · rw [if_neg hid]

/-- Once a survey with a non-empty name is inactive, it stays inactive
(and its name stays non-empty). -/
theorem closed_step (env : FheEnv) (s : ContractState) (op : Op) (sid : Nat)
    (hn : (s.surveys sid).surveyName ≠ "")
    (hc : (s.surveys sid).isActive = false) :
    ((applyOp env s op).surveys sid).surveyName ≠ "" ∧
    ((applyOp env s op).surveys sid).isActive = false := by
  have hname := surveyName_step env s op sid hn
  refine ⟨by rw [hname]; exact hn, ?_⟩
  rcases applyOp_cases env s op with heq | ⟨id, n, a, b, s', _, hok, heq⟩ |
    ⟨now, id, did', qid, ct, pf, s', _, hok, heq⟩ |
    ⟨id, did', qid, j, cv, pf, s', _, hok, heq⟩ | ⟨now, id, s', _, hok, heq⟩
  · rw [heq]
    exact hc
  · obtain ⟨hname2, _, hsv, _, _⟩ := createSurvey_ok hok
    rw [heq]
    simp only [hsv]
    by_cases hid : sid = id
    · subst hid
      exact absurd hname2 hn
    · rw [if_neg hid]
      exact hc
  · obtain ⟨_, _, _, _, hsv, _, _⟩ := submit_ok hok
    rw [heq]
    simp only [hsv]
    exact hc
  · obtain ⟨_, _, _, v, _, hsv, _, _⟩ := verify_ok hok
    rw [heq]
    simp only [hsv]
    exact hc
  · obtain ⟨_, _, hsv, _, _⟩ := close_ok hok
    rw [heq]
    simp only [hsv]
    by_cases hid : sid = id
    · rw [if_pos hid]
    · rw [if_neg hid]
      exact hc

/-- Every unverified stored response carries clear score 0. -/
theorem respZero_step (env : FheEnv) (s : ContractState) (op : Op)
    (h : ∀ sid did r, r ∈ s.responses sid did → r.isVerified = false →
      r.decryptedScore = 0) :
    ∀ sid did r, r ∈ (applyOp env s op).responses sid did → r.isVerified = false →
      r.decryptedScore = 0 := by
  rcases applyOp_cases env s op with heq | ⟨id, n, a, b, s', _, hok, heq⟩ |
    ⟨now, id, did', qid, ct, pf, s', _, hok, heq⟩ |
    ⟨id, did', qid, j, cv, pf, s', _, hok, heq⟩ | ⟨now, id, s', _, hok, heq⟩
  · rw [heq]
    exact h
  · obtain ⟨_, _, _, hre, _⟩ := createSurvey_ok hok
    rw [heq]
    simp only [hre]
    exact h
  · obtain ⟨_, _, _, _, _, hre, _⟩ := submit_ok hok
    rw [heq]
    simp only [hre]
    intro sid did r hmem hunv
    by_cases hkey : sid = id ∧ did = did'
    · rw [if_pos hkey] at hmem
      rcases List.mem_append.mp hmem with hold | hnew
      · exact h sid did r hold hunv
      · rw [List.mem_singleton.mp hnew]
    · rw [if_neg hkey] at hmem
      exact h sid did r hmem hunv
  · obtain ⟨hlen, hunv0, hsig, v, hdec, _, _, hre⟩ := verify_ok hok
    rw [heq]
    simp only [hre]
    intro sid did r hmem hunv
    by_cases hkey : sid = id ∧ did = did'
    · rw [if_pos hkey] at hmem
      rcases List.mem_or_eq_of_mem_set hmem with hold | hnew
      · exact h sid did r hold hunv
      · rw [hnew] at hunv
        exact Bool.noConfusion hunv
    · rw [if_neg hkey] at hmem
      exact h sid did r hmem hunv
  · obtain ⟨_, _, _, hre, _⟩ := close_ok hok
    rw [heq]
    simp only [hre]
    exact h

/-- The aggregate counter of a survey stays equal to the summed lengths
of its per-department sequences (stated for any finite set covering the
support). -/
theorem countInv_step (env : FheEnv) (s : ContractState) (op : Op)
    (h : ∀ sid (D : Finset Nat), (∀ d, d ∉ D → s.responses sid d = []) →
      s.responseCounts sid = Finset.sum D (fun d => (s.responses sid d).length)) :
    ∀ sid (D : Finset Nat),
      (∀ d, d ∉ D → (applyOp env s op).responses sid d = []) →
      (applyOp env s op).responseCounts sid
        = Finset.sum D (fun d => ((applyOp env s op).responses sid d).length) := by
  rcases applyOp_cases env s op with heq | ⟨id, n, a, b, s', _, hok, heq⟩ |
    ⟨now, id, did', qid, ct, pf, s', _, hok, heq⟩ |
    ⟨id, did', qid, j, cv, pf, s', _, hok, heq⟩ | ⟨now, id, s', _, hok, heq⟩
  · rw [heq]
    exact h
  · obtain ⟨_, _, _, hre, hrc⟩ := createSurvey_ok hok
    rw [heq]
    simp only [hre, hrc]
    exact h
  · obtain ⟨_, _, _, _, _, hre, hrc⟩ := submit_ok hok
    rw [heq]
    simp only [hre, hrc]
    intro sid D hD
    by_cases hsid : sid = id
    · subst hsid
      have hmem : did' ∈ D := by
        by_contra hnot
        have hnil := hD did' hnot
        rw [if_pos ⟨rfl, rfl⟩] at hnil
        have hlnil := congrArg List.length hnil
        simp at hlnil
      have hDold : ∀ d, d ∉ D → s.responses sid d = [] := by
        intro d hd
        have hnil := hD d hd
        have hnotc : ¬(sid = sid ∧ d = did') := by
          intro hc
          rw [hc.2] at hd
          exact hd hmem
        rw [if_neg hnotc] at hnil
        exact hnil
      rw [if_pos rfl]
      have hcong : ∀ d ∈ D,
          (if sid = sid ∧ d = did' then
              s.responses sid d ++
                [⟨env.fromExternal ct pf, did', qid, now, false, 0⟩]
            else s.responses sid d).length
          = (s.responses sid d).length + (if d = did' then 1 else 0) := by
        intro d _
        by_cases hdd : d = did'
        · subst hdd
          rw [if_pos ⟨rfl, rfl⟩, if_pos rfl]
          simp
        · have hnotc : ¬(sid = sid ∧ d = did') := fun hc => hdd hc.2
          rw [if_neg hnotc, if_neg hdd]
          omega
      rw [Finset.sum_congr rfl hcong, Finset.sum_add_distrib]
      rw [Finset.sum_ite_eq' D did' (fun _ => 1), if_pos hmem]
      rw [h sid D hDold]
    · rw [if_neg hsid]
      have hnotc : ∀ d, ¬(sid = id ∧ d = did') := fun d hc => hsid hc.1
      have hDold : ∀ d, d ∉ D → s.responses sid d = [] := by
        intro d hd
        have hnil := hD d hd
        rw [if_neg (hnotc d)] at hnil
        exact hnil
      have hcong : ∀ d ∈ D,
          (if sid = id ∧ d = did' then
              s.responses sid d ++
                [⟨env.fromExternal ct pf, did', qid, now, false, 0⟩]
            else s.responses sid d).length = (s.responses sid d).length := by
        intro d _
        rw [if_neg (hnotc d)]
      rw [Finset.sum_congr rfl hcong]
      exact h sid D hDold
  · obtain ⟨hlen, _, _, v, _, _, hrc, hre⟩ := verify_ok hok
    rw [heq]
    simp only [hre, hrc]
    intro sid D hD
    have hlens : ∀ d,
        (if sid = id ∧ d = did' then
            (s.responses sid d).set j
              { (s.responses id did').getD j default with
                decryptedScore := v, isVerified := true }
          else s.responses sid d).length = (s.responses sid d).length := by
      intro d
      by_cases hkey : sid = id ∧ d = did'
      · rw [if_pos hkey]
        exact List.length_set _ _ _
      · rw [if_neg hkey]
    have hDold : ∀ d, d ∉ D → s.responses sid d = [] := by
      intro d hd
      have hnil := hD d hd
      have hl := congrArg List.length hnil
      rw [hlens d] at hl
      exact List.eq_nil_of_length_eq_zero hl
    rw [Finset.sum_congr rfl (fun d _ => hlens d)]
    exact h sid D hDold
  · obtain ⟨_, _, _, hre, hrc⟩ := close_ok hok
    rw [heq]
    simp only [hre, hrc]
    exact h

/-- A survey id on which `createSurvey` never succeeded keeps its default
record, empty response sequences and zero counter. -/
theorem untouched_step (env : FheEnv) (s : ContractState) (op : Op) (sid : Nat)
    (hQ : ∀ n a b, op = Op.create sid n a b → b ≤ a)
    (h1 : s.surveys sid = ⟨"", 0, 0, false⟩)
    (h2 : ∀ d, s.responses sid d = [])
    (h3 : s.responseCounts sid = 0) :
    (applyOp env s op).surveys sid = ⟨"", 0, 0, false⟩ ∧
    (∀ d, (applyOp env s op).responses sid d = []) ∧
    (applyOp env s op).responseCounts sid = 0 := by
  rcases applyOp_cases env s op with heq | ⟨id, n, a, b, s', hop, hok, heq⟩ |
    ⟨now, id, did', qid, ct, pf, s', hop, hok, heq⟩ |
    ⟨id, did', qid, j, cv, pf, s', hop, hok, heq⟩ | ⟨now, id, s', hop, hok, heq⟩
  · rw [heq]
    exact ⟨h1, h2, h3⟩
  · obtain ⟨hname, hab, hsv, hre, hrc⟩ := createSurvey_ok hok
    by_cases hid : sid = id
    · rw [hid] at hQ
      exact absurd hab (Nat.not_lt.mpr (hQ n a b hop))
    · rw [heq]
      simp only [hsv, hre, hrc]
      refine ⟨?_, h2, h3⟩
      rw [if_neg hid]
      exact h1
  · obtain ⟨hact, _, _, _, hsv, hre, hrc⟩ := submit_ok hok
    by_cases hid : sid = id
    · rw [← hid, h1] at hact
      exact Bool.noConfusion hact
    · rw [heq]
      simp only [hsv, hre, hrc]
      have hnotc : ∀ d, ¬(sid = id ∧ d = did') := fun d hc => hid hc.1
      refine ⟨h1, ?_, ?_⟩
      · intro d
        rw [if_neg (hnotc d)]
        exact h2 d
      · rw [if_neg hid]
        exact h3
  · obtain ⟨hlen, _, _, v, _, hsv, hrc, hre⟩ := verify_ok hok
    by_cases hid : sid = id
    · rw [← hid, h2 did'] at hlen
      simp at hlen
    · rw [heq]
      simp only [hsv, hre, hrc]
      have hnotc : ∀ d, ¬(sid = id ∧ d = did') := fun d hc => hid hc.1
      refine ⟨h1, ?_, h3⟩
      intro d
      rw [if_neg (hnotc d)]
      exact h2 d
  · obtain ⟨hact, _, hsv, hre, hrc⟩ := close_ok hok
    by_cases hid : sid = id
    · rw [← hid, h1] at hact
      exact Bool.noConfusion hact
    · rw [heq]
      simp only [hsv, hre, hrc]
      refine ⟨?_, h2, h3⟩
      rw [if_neg hid]
      exact h1

/-! ### Claims -/

/-- Claim C1: for a stored response, the first `verifyResponse` call that
passes the index, proof and decoding checks succeeds and flips
`isVerified` to `true` (storing the decoded value); every later
`verifyResponse` on the same `(surveyId, departmentId, index)` — with any
proof and clear value whatsoever — fails with `ResponseAlreadyVerified`
and leaves the state unchanged; and no transaction of any kind alters a
verified entry or its index. -/
theorem claim1_exactly_once :
    (∀ (env : FheEnv) (s : ContractState) (sid did qid i : Nat) (cv pf : List Nat)
      (v : Nat),
      i < (s.responses sid did).length →
      ((s.responses sid did).getD i default).isVerified = false →
      env.checkSignatures [((s.responses sid did).getD i default).encryptedScore]
        cv pf = true →
      env.decodeUint32 cv = some v →
      (verifyResponse env s sid did qid i cv pf).toOption.isSome = true ∧
      (((applyOp env s (Op.verify sid did qid i cv pf)).responses sid did).getD i
        default).isVerified = true ∧
      (((applyOp env s (Op.verify sid did qid i cv pf)).responses sid did).getD i
        default).decryptedScore = v) ∧
    (∀ (env : FheEnv) (s : ContractState) (sid did qid i : Nat) (cv pf : List Nat),
      i < (s.responses sid did).length →
      ((s.responses sid did).getD i default).isVerified = true →
      verifyResponse env s sid did qid i cv pf
        = Except.error Err.ResponseAlreadyVerified ∧
      applyOp env s (Op.verify sid did qid i cv pf) = s) ∧
    (∀ (env : FheEnv) (s : ContractState) (op : Op) (sid did i : Nat),
      i < (s.responses sid did).length →
      ((s.responses sid did).getD i default).isVerified = true →
      ((applyOp env s op).responses sid did).getD i default
        = (s.responses sid did).getD i default ∧
      i < ((applyOp env s op).responses sid did).length) := by
  refine ⟨?_, ?_, ?_⟩
  · intro env s sid did qid i cv pf v hi hunv hsig hdec
    have hcond : ¬(((s.responses sid did).getD i default).isVerified = true) := by
      intro hc
      rw [hc] at hunv
      exact Bool.noConfusion hunv
    have hok : verifyResponse env s sid did qid i cv pf = Except.ok
        { s with responses := (fun sid' did' =>
          if sid' = sid ∧ did' = did then
            (s.responses sid' did').set i
              { (s.responses sid did).getD i default with
                decryptedScore := v, isVerified := true }
          else s.responses sid' did') } := by
      unfold verifyResponse
      rw [if_pos hi, if_neg hcond, if_pos hsig, hdec]
    have hstep : stepRes env s (Op.verify sid did qid i cv pf) = Except.ok
        { s with responses := (fun sid' did' =>
          if sid' = sid ∧ did' = did then
            (s.responses sid' did').set i
              { (s.responses sid did).getD i default with
                decryptedScore := v, isVerified := true }
          else s.responses sid' did') } := hok
    have happ := applyOp_of_ok hstep
    refine ⟨by rw [hok]; rfl, ?_, ?_⟩
    · rw [happ]
      show (((if sid = sid ∧ did = did then
          (s.responses sid did).set i
            { (s.responses sid did).getD i default with
              decryptedScore := v, isVerified := true }
        else s.responses sid did)).getD i default).isVerified = true
      rw [if_pos ⟨rfl, rfl⟩, getD_set_self _ _ hi]
    · rw [happ]
      show (((if sid = sid ∧ did = did then
          (s.responses sid did).set i
            { (s.responses sid did).getD i default with
              decryptedScore := v, isVerified := true }
        else s.responses sid did)).getD i default).decryptedScore = v
      rw [if_pos ⟨rfl, rfl⟩, getD_set_self _ _ hi]
  · intro env s sid did qid i cv pf hi hv
    have herr : verifyResponse env s sid did qid i cv pf
        = Except.error Err.ResponseAlreadyVerified := by
      unfold verifyResponse
      rw [if_pos hi, if_pos hv]
    exact ⟨herr, applyOp_of_error herr⟩
  · intro env s op sid did i hi hv
    exact verified_frozen_step env s op sid did i hi hv

/-- Witness for C1 at the concrete states `sSubmitted` (unverified entry,
first call succeeds) and `sVerified` (second call fails and changes
nothing). -/
theorem claim1_witness :
    (verifyResponse env0 sSubmitted 1 1 1 0 [8] []).toOption.isSome = true ∧
    (((applyOp env0 sSubmitted (Op.verify 1 1 1 0 [8] [])).responses 1 1).getD 0
      default).isVerified = true ∧
    (((applyOp env0 sSubmitted (Op.verify 1 1 1 0 [8] [])).responses 1 1).getD 0
      default).decryptedScore = 8 ∧
    verifyResponse env0 sVerified 1 1 1 0 [] []
      = Except.error Err.ResponseAlreadyVerified ∧
    applyOp env0 sVerified (Op.verify 1 1 1 0 [] []) = sVerified := by
  have h1 := claim1_exactly_once.1 env0 sSubmitted 1 1 1 0 [8] [] 8
    (by decide) (by decide) (by decide) (by decide)
  have h2 := claim1_exactly_once.2.1 env0 sVerified 1 1 1 0 [] []
    (by decide) (by decide)
  exact ⟨h1.1, h1.2.1, h1.2.2, h2.1, h2.2⟩

/-- Counterexample to claim C2 as stated: `submitEncryptedResponse` has no
return value besides the new state (its Solidity `returns` clause is
empty), so it cannot return the new response's index.  Concretely, the
successful submissions from `sCreated` (new index 0) and from
`sSubmitted` (new index 1) return identical values. -/
theorem claim2_counterexample :
    (sCreated.responses 1 1).length = 0 ∧
    (sSubmitted.responses 1 1).length = 1 ∧
    Except.map Prod.fst (submitEncryptedResponse env0 5 sCreated 1 1 1 7 0)
      = Except.ok () ∧
    Except.map Prod.fst (submitEncryptedResponse env0 5 sSubmitted 1 1 1 7 0)
      = Except.ok () ∧
    Except.map Prod.fst (submitEncryptedResponse env0 5 sCreated 1 1 1 7 0)
      = Except.map Prod.fst (submitEncryptedResponse env0 5 sSubmitted 1 1 1 7 0) :=
  ⟨by decide, by decide, rfl, rfl, rfl⟩

/-- Claim C2 (amended): a successful submit returns no value, but it
appends its response at the index equal to the previous length of the
`(surveyId, departmentId)` sequence, preserves all earlier entries and
every other sequence, so N successful submissions occupy exactly the
dense zero-based indices 0..N-1 in submission order. -/
theorem claim2_amended :
    ∀ (env : FheEnv) (now : Nat) (s : ContractState) (sid did qid ct pf : Nat)
      (u : Unit) (s' : ContractState),
      submitEncryptedResponse env now s sid did qid ct pf = Except.ok (u, s') →
      s'.responses sid did = s.responses sid did ++
        [⟨env.fromExternal ct pf, did, qid, now, false, 0⟩] ∧
      (s'.responses sid did).length = (s.responses sid did).length + 1 ∧
      (∀ j, j < (s.responses sid did).length →
        (s'.responses sid did).getD j default = (s.responses sid did).getD j default) ∧
      (s'.responses sid did).getD (s.responses sid did).length default
        = ⟨env.fromExternal ct pf, did, qid, now, false, 0⟩ ∧
      (∀ sid' did', ¬(sid' = sid ∧ did' = did) →
        s'.responses sid' did' = s.responses sid' did') := by
  intro env now s sid did qid ct pf u s' h
  obtain ⟨_, _, _, _, _, hre, _⟩ := submit_ok h
  have hkey : s'.responses sid did = s.responses sid did ++
      [⟨env.fromExternal ct pf, did, qid, now, false, 0⟩] := by
    simp [hre]
  refine ⟨hkey, ?_, ?_, ?_, ?_⟩
  · rw [hkey]
    simp
  · intro j hj
    rw [hkey]
    exact getD_append_left _ _ hj
  · rw [hkey, List.getD_append_right _ _ _ _ (Nat.le_refl _)]
    simp
  · intro sid' did' hne
    simp only [hre]
    rw [if_neg hne]

/-- Witness for the amended C2 at the concrete submission from `sCreated`
to `sSubmitted`. -/
theorem claim2_witness :
    sSubmitted.responses 1 1 = sCreated.responses 1 1 ++ [⟨7, 1, 1, 5, false, 0⟩] ∧
    (sSubmitted.responses 1 1).length = (sCreated.responses 1 1).length + 1 := by
  have h := claim2_amended env0 5 sCreated 1 1 1 7 0 () sSubmitted rfl
  exact ⟨h.1, h.2.1⟩

/-- Counterexample to claim C3 as stated: the duplicate check only tests
that the stored name is empty, so after a first successful
`createSurvey 1 "" 0 10` — an empty name — a second call succeeds (it
does not fail with `SurveyAlreadyExists`) and overwrites the metadata. -/
theorem claim3_counterexample :
    (createSurvey initialState 1 "" 0 10).toOption.isSome = true ∧
    (createSurvey sEmptyName 1 "x" 0 10).toOption.isSome = true ∧
    createSurvey sEmptyName 1 "x" 0 10 ≠ Except.error Err.SurveyAlreadyExists ∧
    ((createSurvey sEmptyName 1 "x" 0 10).toOption.getD sEmptyName).surveys 1
      ≠ sEmptyName.surveys 1 := by
  refine ⟨by decide, by decide, ?_, by decide⟩
  intro h
  have hsome : (createSurvey sEmptyName 1 "x" 0 10).toOption.isSome = true := by decide
  rw [h] at hsome
  exact Bool.noConfusion hsome

/-- Claim C3 (amended): after a first successful `createSurvey` whose
name is non-empty, every later `createSurvey` on the same id — after any
interleaved transactions, with any arguments — fails with
`SurveyAlreadyExists` and leaves the state unchanged. -/
theorem claim3_amended :
    ∀ (s : ContractState) (sid : Nat) (n : String) (a b : Nat) (s' : ContractState),
      createSurvey s sid n a b = Except.ok s' → n ≠ "" →
      ∀ (env : FheEnv) (ops : List Op) (n2 : String) (a2 b2 : Nat),
        createSurvey (execTrace env s' ops) sid n2 a2 b2
          = Except.error Err.SurveyAlreadyExists ∧
        applyOp env (execTrace env s' ops) (Op.create sid n2 a2 b2)
          = execTrace env s' ops := by
  intro s sid n a b s' hok hn env ops n2 a2 b2
  obtain ⟨_, _, hsv, _, _⟩ := createSurvey_ok hok
  have hbase : (s'.surveys sid).surveyName = n := by
    simp [hsv]
  have hname : ((execTrace env s' ops).surveys sid).surveyName ≠ "" :=
    execTrace_pres env (fun t => (t.surveys sid).surveyName ≠ "") (fun _ => True)
      (fun t op _ ht => by
        show ((applyOp env t op).surveys sid).surveyName ≠ ""
        rw [surveyName_step env t op sid ht]
        exact ht)
      ops s' (fun _ _ => trivial) (by
        show (s'.surveys sid).surveyName ≠ ""
        rw [hbase]
        exact hn)
  have herr : createSurvey (execTrace env s' ops) sid n2 a2 b2
      = Except.error Err.SurveyAlreadyExists := by
    unfold createSurvey
    rw [if_neg hname]
  exact ⟨herr, applyOp_of_error herr⟩

/-- Witness for the amended C3: re-creating survey 1 (name "s") fails
with `SurveyAlreadyExists` and changes nothing. -/
theorem claim3_witness :
    createSurvey sCreated 1 "t" 0 99 = Except.error Err.SurveyAlreadyExists ∧
    applyOp env0 sCreated (Op.create 1 "t" 0 99) = sCreated :=
  claim3_amended initialState 1 "s" 0 10 sCreated rfl (by decide) env0 [] "t" 0 99

/-- Counterexample to claim C4 as stated: a survey created with the
empty name can be closed and then re-created, which sets `isActive` back
to `true` — a reopen path. -/
theorem claim4_counterexample :
    (closeSurvey 11 sEmptyName 1).toOption.isSome = true ∧
    (sEmptyClosed.surveys 1).isActive = false ∧
    (createSurvey sEmptyClosed 1 "" 0 10).toOption.isSome = true ∧
    (sEmptyRecreated.surveys 1).isActive = true :=
  ⟨by decide, by decide, by decide, by decide⟩

/-- Claim C4 (amended): for a survey whose stored name is non-empty, once
`isActive` is `false` no sequence of transactions ever makes it `true`
again. -/
theorem claim4_amended :
    ∀ (env : FheEnv) (s : ContractState) (sid : Nat),
      (s.surveys sid).surveyName ≠ "" → (s.surveys sid).isActive = false →
      ∀ ops : List Op, ((execTrace env s ops).surveys sid).isActive = false := by
  intro env s sid hn hc ops
  have hP := execTrace_pres env
    (fun t => (t.surveys sid).surveyName ≠ "" ∧ (t.surveys sid).isActive = false)
    (fun _ => True)
    (fun t op _ ht => closed_step env t op sid ht.1 ht.2)
    ops s (fun _ _ => trivial) ⟨hn, hc⟩
  exact hP.2

/-- Witness for the amended C4 from the closed state `sClosed` under two
further transactions. -/
theorem claim4_witness :
    ((execTrace env0 sClosed [Op.create 1 "t" 0 99, Op.close 50 1]).surveys 1).isActive
      = false :=
  claim4_amended env0 sClosed 1 (by decide) (by decide)
    [Op.create 1 "t" 0 99, Op.close 50 1]

/-- Claim C5: `getDecryptedResponse` (the spec's `readVerified`) fails
with `ResponseNotVerified` while the entry is unverified; the flag can
only flip through a `verifyResponse` transaction on exactly that
`(surveyId, departmentId, index)`; and after a successful verify that
decoded `v`, every later read — after any further transactions — returns
exactly `v`. -/
theorem claim5_read_verified :
    (∀ (s : ContractState) (sid did qid i : Nat),
      i < (s.responses sid did).length →
      ((s.responses sid did).getD i default).isVerified = false →
      getDecryptedResponse s sid did qid i = Except.error Err.ResponseNotVerified) ∧
    (∀ (env : FheEnv) (s : ContractState) (op : Op) (sid did i : Nat),
      i < (s.responses sid did).length →
      ((s.responses sid did).getD i default).isVerified = false →
      (((applyOp env s op).responses sid did).getD i default).isVerified = true →
      ∃ qid cv pf, op = Op.verify sid did qid i cv pf) ∧
    (∀ (env : FheEnv) (s : ContractState) (sid did qid i : Nat) (cv pf : List Nat)
      (v : Nat) (s' : ContractState),
      verifyResponse env s sid did qid i cv pf = Except.ok s' →
      env.decodeUint32 cv = some v →
      ∀ (env2 : FheEnv) (ops : List Op) (qid2 : Nat),
        getDecryptedResponse (execTrace env2 s' ops) sid did qid2 i = Except.ok v) := by
  refine ⟨?_, ?_, ?_⟩
  · intro s sid did qid i hi hunv
    have hcond : ¬(((s.responses sid did).getD i default).isVerified = true) := by
      intro hc
      rw [hc] at hunv
      exact Bool.noConfusion hunv
    unfold getDecryptedResponse
    rw [if_pos hi, if_neg hcond]
  · intro env s op sid did i hi hunv hv
    rcases applyOp_cases env s op with heq | ⟨id, n, a, b, s', hop, hok, heq⟩ |
      ⟨now, id, did2, qid2, ct, pf2, s', hop, hok, heq⟩ |
      ⟨id, did2, qid2, j, cv2, pf2, s', hop, hok, heq⟩ | ⟨now, id, s', hop, hok, heq⟩
    · rw [heq, hunv] at hv
      exact Bool.noConfusion hv
    · obtain ⟨_, _, _, hre, _⟩ := createSurvey_ok hok
      rw [heq, hre, hunv] at hv
      exact Bool.noConfusion hv
    · obtain ⟨_, _, _, _, _, hre, _⟩ := submit_ok hok
      rw [heq] at hv
      simp only [hre] at hv
      by_cases hkey : sid = id ∧ did = did2
      · rw [if_pos hkey, getD_append_left _ _ hi, hunv] at hv
        exact Bool.noConfusion hv
      · rw [if_neg hkey, hunv] at hv
        exact Bool.noConfusion hv
    · obtain ⟨hlen, hunv0, hsig0, w, hdec0, _, _, hre⟩ := verify_ok hok
      rw [heq] at hv
      simp only [hre] at hv
      by_cases hkey : sid = id ∧ did = did2
      · obtain ⟨rfl, rfl⟩ := hkey
        rw [if_pos ⟨rfl, rfl⟩] at hv
        by_cases hij : j = i
        · subst hij
          exact ⟨qid2, cv2, pf2, hop⟩
        · rw [getD_set_ne _ _ hij, hunv] at hv
          exact Bool.noConfusion hv
      · rw [if_neg hkey, hunv] at hv
        exact Bool.noConfusion hv
    · obtain ⟨_, _, _, hre, _⟩ := close_ok hok
      rw [heq, hre, hunv] at hv
      exact Bool.noConfusion hv
  · intro env s sid did qid i cv pf v s' hok hdec env2 ops qid2
    obtain ⟨hi, hunv, hsig, w, hdw, _, _, hre⟩ := verify_ok hok
    have hw : w = v := by
      rw [hdw] at hdec
      exact Option.some.inj hdec
    subst hw
    have hres_eq : s'.responses sid did = (s.responses sid did).set i
        { (s.responses sid did).getD i default with
          decryptedScore := w, isVerified := true } := by
      simp [hre]
    have hlen2 : i < (s'.responses sid did).length := by
      rw [hres_eq]
      simpa using hi
    have hentry : (s'.responses sid did).getD i default
        = { (s.responses sid did).getD i default with
            decryptedScore := w, isVerified := true } := by
      rw [hres_eq]
      exact getD_set_self _ _ hi
    have hfro := verified_frozen_trace env2 sid did i ops s' hlen2 (by rw [hentry])
    unfold getDecryptedResponse
    rw [if_pos hfro.2, if_pos (by rw [hfro.1, hentry]), hfro.1, hentry]

/-- Witness for C5: reading the unverified entry of `sSubmitted` fails
with `ResponseNotVerified`; after the concrete verify with clear value 8
and one further transaction, the read returns 8. -/
theorem claim5_witness :
    getDecryptedResponse sSubmitted 1 1 1 0 = Except.error Err.ResponseNotVerified ∧
    getDecryptedResponse (execTrace env0 sVerified [Op.submit 5 1 1 1 9 0]) 1 1 2 0
      = Except.ok 8 := by
  have h1 := claim5_read_verified.1 sSubmitted 1 1 1 0 (by decide) (by decide)
  have h3 := claim5_read_verified.2.2 env0 sSubmitted 1 1 1 0 [8] [] 8 sVerified rfl
    (by decide) env0 [Op.submit 5 1 1 1 9 0] 2
  exact ⟨h1, h3⟩

/-- Claim C6: in every state reachable from deployment, the counter of a
survey equals the summed lengths of its per-department sequences (over
any finite set covering all non-empty departments); a successful submit
increments exactly its own survey's counter by one; no other transaction
changes any counter; and counters never decrease. -/
theorem claim6_counter :
    (∀ (env : FheEnv) (ops : List Op) (sid : Nat) (D : Finset Nat),
      (∀ d, d ∉ D → (execTrace env initialState ops).responses sid d = []) →
      (execTrace env initialState ops).responseCounts sid
        = Finset.sum D (fun d => ((execTrace env initialState ops).responses sid d).length)) ∧
    (∀ (env : FheEnv) (now : Nat) (s : ContractState) (sid did qid ct pf : Nat)
      (u : Unit) (s' : ContractState),
      submitEncryptedResponse env now s sid did qid ct pf = Except.ok (u, s') →
      s'.responseCounts sid = s.responseCounts sid + 1 ∧
      ∀ sid2, sid2 ≠ sid → s'.responseCounts sid2 = s.responseCounts sid2) ∧
    (∀ (env : FheEnv) (s : ContractState) (op : Op),
      (∀ now sid did qid ct pf, op ≠ Op.submit now sid did qid ct pf) →
      (applyOp env s op).responseCounts = s.responseCounts) ∧
    (∀ (env : FheEnv) (s : ContractState) (op : Op) (sid : Nat),
      s.responseCounts sid ≤ (applyOp env s op).responseCounts sid) := by
  refine ⟨?_, ?_, ?_, ?_⟩
  · intro env ops sid D hD
    have hP := execTrace_pres env
      (fun t => ∀ sid2 (D2 : Finset Nat), (∀ d, d ∉ D2 → t.responses sid2 d = []) →
        t.responseCounts sid2 = Finset.sum D2 (fun d => (t.responses sid2 d).length))
      (fun _ => True)
      (fun t op _ ht => countInv_step env t op ht)
      ops initialState (fun _ _ => trivial)
      (by
        intro sid2 D2 _
        show (0 : Nat) = Finset.sum D2 (fun d => ([] : List EncryptedResponse).length)
        simp)
    exact hP sid D hD
  · intro env now s sid did qid ct pf u s' h
    obtain ⟨_, _, _, _, _, _, hrc⟩ := submit_ok h
    constructor
    · simp [hrc]
    · intro sid2 hne
      simp only [hrc]
      rw [if_neg hne]
  · intro env s op hns
    rcases applyOp_cases env s op with heq | ⟨id, n, a, b, s', hop, hok, heq⟩ |
      ⟨now, id, did, qid, ct, pf, s', hop, hok, heq⟩ |
      ⟨id, did, qid, j, cv, pf, s', hop, hok, heq⟩ | ⟨now, id, s', hop, hok, heq⟩
    · rw [heq]
    · obtain ⟨_, _, _, _, hrc⟩ := createSurvey_ok hok
      rw [heq, hrc]
    · exact absurd hop (hns now id did qid ct pf)
    · obtain ⟨_, _, _, v, _, _, hrc, _⟩ := verify_ok hok
      rw [heq, hrc]
    · obtain ⟨_, _, _, _, hrc⟩ := close_ok hok
      rw [heq, hrc]
  · intro env s op sid
    rcases applyOp_cases env s op with heq | ⟨id, n, a, b, s', hop, hok, heq⟩ |
      ⟨now, id, did, qid, ct, pf, s', hop, hok, heq⟩ |
      ⟨id, did, qid, j, cv, pf, s', hop, hok, heq⟩ | ⟨now, id, s', hop, hok, heq⟩
    · rw [heq]
    · obtain ⟨_, _, _, _, hrc⟩ := createSurvey_ok hok
      rw [heq, hrc]
    · obtain ⟨_, _, _, _, _, _, hrc⟩ := submit_ok hok
      rw [heq]
      simp only [hrc]
      by_cases hsid : sid = id
      · rw [if_pos hsid]
        exact Nat.le_succ _
      · rw [if_neg hsid]
    · obtain ⟨_, _, _, v, _, _, hrc, _⟩ := verify_ok hok
      rw [heq, hrc]
    · obtain ⟨_, _, _, _, hrc⟩ := close_ok hok
      rw [heq, hrc]

/-- In `sSubmitted`, departments other than 1 hold no responses for
survey 1. -/
theorem sSubmitted_responses_off (d : Nat) (hd : d ≠ 1) :
    sSubmitted.responses 1 d = [] := by
  have hok : submitEncryptedResponse env0 5 sCreated 1 1 1 7 0
      = Except.ok ((), sSubmitted) := rfl
  obtain ⟨_, _, _, _, _, hre, _⟩ := submit_ok hok
  simp only [hre]
  have hnotc : ¬(True ∧ d = 1) := fun hc => hd hc.2
  rw [if_neg hnotc]
  rfl

/-- Witness for C6 on the concrete trace `c6ops` with `D = {1}`, plus
instances of the three per-transaction conjuncts. -/
theorem claim6_witness :
    c6state.responseCounts 1 = Finset.sum {1} (fun d => (c6state.responses 1 d).length) ∧
    sSubmitted.responseCounts 1 = sCreated.responseCounts 1 + 1 ∧
    (applyOp env0 c6state (Op.close 50 1)).responseCounts = c6state.responseCounts ∧
    c6state.responseCounts 1
      ≤ (applyOp env0 c6state (Op.submit 5 1 2 1 7 0)).responseCounts 1 := by
  refine ⟨?_, ?_, ?_, ?_⟩
  · exact claim6_counter.1 env0 c6ops 1 {1} (by
      intro d hd
      have hd1 : d ≠ 1 := by simpa using hd
      exact sSubmitted_responses_off d hd1)
  · exact (claim6_counter.2.1 env0 5 sCreated 1 1 1 7 0 () sSubmitted rfl).1
  · exact claim6_counter.2.2.1 env0 c6state (Op.close 50 1) (by
      intro now sid did qid ct pf h
      exact Op.noConfusion h)
  · exact claim6_counter.2.2.2 env0 c6state (Op.submit 5 1 2 1 7 0) 1

/-- Counterexample to claim C7 as stated: for a survey that was never
created, `block.timestamp = 1` lies outside its (default, empty) window
`[0, 0]`, yet submit fails with `SurveyNotActive`, not with the
out-of-window error — the activity check runs first. -/
theorem claim7_counterexample :
    (initialState.surveys 1).endTime < 1 ∧
    submitEncryptedResponse env0 1 initialState 1 0 0 0 0
      = Except.error Err.SurveyNotActive ∧
    submitEncryptedResponse env0 1 initialState 1 0 0 0 0
      ≠ Except.error Err.SurveyNotInProgress := by
  refine ⟨by decide, rfl, ?_⟩
  intro h
  have h2 : (Except.error Err.SurveyNotActive : Except Err (Unit × ContractState))
      = Except.error Err.SurveyNotInProgress := h
  injection h2 with h3
  exact Err.noConfusion h3

/-- Claim C7 (amended): for a survey whose `isActive` flag is `true`,
submitting outside `[startTime, endTime]` fails with
`SurveyNotInProgress`, and submitting inside the window with a
well-formed ciphertext succeeds. -/
theorem claim7_amended :
    (∀ (env : FheEnv) (now : Nat) (s : ContractState) (sid did qid ct pf : Nat),
      (s.surveys sid).isActive = true →
      (now < (s.surveys sid).startTime ∨ (s.surveys sid).endTime < now) →
      submitEncryptedResponse env now s sid did qid ct pf
        = Except.error Err.SurveyNotInProgress) ∧
    (∀ (env : FheEnv) (now : Nat) (s : ContractState) (sid did qid ct pf : Nat),
      (s.surveys sid).isActive = true →
      (s.surveys sid).startTime ≤ now → now ≤ (s.surveys sid).endTime →
      env.isInit (env.fromExternal ct pf) = true →
      (submitEncryptedResponse env now s sid did qid ct pf).toOption.isSome = true) := by
  constructor
  · intro env now s sid did qid ct pf hact hout
    have hnot : ¬((s.surveys sid).startTime ≤ now ∧ now ≤ (s.surveys sid).endTime) := by
      rcases hout with h | h <;> (intro hc; omega)
    unfold submitEncryptedResponse
    rw [if_pos hact, if_neg hnot]
  · intro env now s sid did qid ct pf hact hs he hinit
    unfold submitEncryptedResponse
    rw [if_pos hact, if_pos ⟨hs, he⟩, if_pos hinit]
    rfl

/-- Witness for the amended C7 on `sCreated` (window `[0, 10]`): submit at
time 50 fails with `SurveyNotInProgress`; submit at time 5 succeeds. -/
theorem claim7_witness :
    submitEncryptedResponse env0 50 sCreated 1 1 1 7 0
      = Except.error Err.SurveyNotInProgress ∧
    (submitEncryptedResponse env0 5 sCreated 1 2 3 9 0).toOption.isSome = true :=
  ⟨claim7_amended.1 env0 50 sCreated 1 1 1 7 0 (by decide) (Or.inr (by decide)),
   claim7_amended.2 env0 5 sCreated 1 2 3 9 0 (by decide) (by decide) (by decide)
     (by decide)⟩

/-- Claim C8: every transaction is all-or-nothing — whenever any of the
four mutating calls fails with any error, the post-state (surveys,
responses and counters alike) is exactly the pre-state. -/
theorem claim8_all_or_nothing :
    ∀ (env : FheEnv) (s : ContractState) (op : Op) (e : Err),
      stepRes env s op = Except.error e →
      applyOp env s op = s ∧
      (applyOp env s op).surveys = s.surveys ∧
      (applyOp env s op).responses = s.responses ∧
      (applyOp env s op).responseCounts = s.responseCounts := by
  intro env s op e h
  have heq := applyOp_of_error h
  exact ⟨heq, by rw [heq], by rw [heq], by rw [heq]⟩

/-- Witness for C8: closing the never-created survey 1 reverts with
`SurveyAlreadyClosed` and leaves the fresh state untouched. -/
theorem claim8_witness :
    applyOp env0 initialState (Op.close 0 1) = initialState ∧
    (applyOp env0 initialState (Op.close 0 1)).responseCounts
      = initialState.responseCounts := by
  have h := claim8_all_or_nothing env0 initialState (Op.close 0 1)
    Err.SurveyAlreadyClosed rfl
  exact ⟨h.1, h.2.2.2⟩

/-- Claim C9: in any reachable state, a stored response that is not yet
verified reads back through `getResponseDetails` with
`isVerified = false` and the concrete stored clear score `0` — the
pre-verification clear score is the value 0, not an absent field. -/
theorem claim9_details :
    ∀ (env : FheEnv) (ops : List Op) (sid did qid i : Nat),
      i < ((execTrace env initialState ops).responses sid did).length →
      (((execTrace env initialState ops).responses sid did).getD i default).isVerified
        = false →
      getResponseDetails (execTrace env initialState ops) sid did qid i
        = Except.ok
          ((((execTrace env initialState ops).responses sid did).getD i
              default).departmentId,
           (((execTrace env initialState ops).responses sid did).getD i
              default).questionId,
           (((execTrace env initialState ops).responses sid did).getD i
              default).timestamp,
           false, 0) := by
  intro env ops sid did qid i hi hunv
  have hzero := execTrace_pres env
    (fun t => ∀ sid2 did2 r, r ∈ t.responses sid2 did2 → r.isVerified = false →
      r.decryptedScore = 0)
    (fun _ => True)
    (fun t op _ ht => respZero_step env t op ht)
    ops initialState (fun _ _ => trivial)
    (by
      intro sid2 did2 r hr
      exact absurd hr (List.not_mem_nil r))
  have hmem := getD_mem ((execTrace env initialState ops).responses sid did) hi
  have hsc := hzero sid did _ hmem hunv
  unfold getResponseDetails
  rw [if_pos hi, hunv, hsc]

/-- Witness for C9 at the unverified entry of the trace state `c6state`. -/
theorem claim9_witness :
    getResponseDetails c6state 1 1 1 0 = Except.ok (1, 1, 5, false, 0) :=
  claim9_details env0 c6ops 1 1 1 0 (by decide) (by decide)

/-- Claim C10: a survey id on which `createSurvey` never succeeded keeps
its zero-initialized record, so the operations treat it as a default
record rather than reporting a dedicated nonexistent-survey error:
submit fails with `SurveyNotActive`, `closeSurvey` fails with
`SurveyAlreadyClosed`, the counter reads 0, and every indexed accessor
(`getEncryptedResponse`, `getResponseDetails`, `verifyResponse`,
`getDecryptedResponse`) fails with `InvalidResponseIndex` at every
index. -/
theorem claim10_default_survey :
    ∀ (env : FheEnv) (ops : List Op) (sid : Nat),
      (∀ op ∈ ops, ∀ (n : String) (a b : Nat), op = Op.create sid n a b → b ≤ a) →
      (∀ (now did qid ct pf : Nat),
        submitEncryptedResponse env now (execTrace env initialState ops) sid did qid ct pf
          = Except.error Err.SurveyNotActive) ∧
      (∀ now : Nat, closeSurvey now (execTrace env initialState ops) sid
        = Except.error Err.SurveyAlreadyClosed) ∧
      getResponseCount (execTrace env initialState ops) sid = 0 ∧
      (∀ (did qid i : Nat) (cv pf : List Nat),
        getEncryptedResponse (execTrace env initialState ops) sid did qid i
          = Except.error Err.InvalidResponseIndex ∧
        getResponseDetails (execTrace env initialState ops) sid did qid i
          = Except.error Err.InvalidResponseIndex ∧
        verifyResponse env (execTrace env initialState ops) sid did qid i cv pf
          = Except.error Err.InvalidResponseIndex ∧
        getDecryptedResponse (execTrace env initialState ops) sid did qid i
          = Except.error Err.InvalidResponseIndex) := by
  intro env ops sid hQ
  have hP := execTrace_pres env
    (fun t => t.surveys sid = ⟨"", 0, 0, false⟩ ∧ (∀ d, t.responses sid d = []) ∧
      t.responseCounts sid = 0)
    (fun op => ∀ (n : String) (a b : Nat), op = Op.create sid n a b → b ≤ a)
    (fun t op hq ht => untouched_step env t op sid hq ht.1 ht.2.1 ht.2.2)
    ops initialState hQ ⟨rfl, fun _ => rfl, rfl⟩
  obtain ⟨hsv, hre, hrc⟩ := hP
  have hna : ¬(((execTrace env initialState ops).surveys sid).isActive = true) := by
    rw [hsv]
    intro hc
    exact Bool.noConfusion hc
  have hnotlt : ∀ did i,
      ¬(i < ((execTrace env initialState ops).responses sid did).length) := by
    intro did i
    rw [hre did]
    simp
  refine ⟨?_, ?_, ?_, ?_⟩
  · intro now did qid ct pf
    unfold submitEncryptedResponse
    rw [if_neg hna]
  · intro now
    unfold closeSurvey
    rw [if_neg hna]
  · exact hrc
  · intro did qid i cv pf
    refine ⟨?_, ?_, ?_, ?_⟩
    · unfold getEncryptedResponse
      rw [if_neg (hnotlt did i)]
    · unfold getResponseDetails
      rw [if_neg (hnotlt did i)]
    · unfold verifyResponse
      rw [if_neg (hnotlt did i)]
    · unfold getDecryptedResponse
      rw [if_neg (hnotlt did i)]

/-- Witness for C10 on the trace `c10ops`, which never creates survey 1. -/
theorem claim10_witness :
    submitEncryptedResponse env0 5 c10state 1 1 1 7 0
      = Except.error Err.SurveyNotActive ∧
    closeSurvey 5 c10state 1 = Except.error Err.SurveyAlreadyClosed ∧
    getResponseCount c10state 1 = 0 ∧
    getEncryptedResponse c10state 1 1 1 0 = Except.error Err.InvalidResponseIndex := by
  have h := claim10_default_survey env0 c10ops 1 (by
    intro op hop n a b hco
    rcases List.mem_singleton.mp hop with rfl
    exact Op.noConfusion hco)
  exact ⟨h.1 5 1 1 7 0, h.2.1 5, h.2.2.1, (h.2.2.2 1 1 0 [] []).1⟩
